import Mathlib

/-!
Shallow embedding of the core of the `build-your-own-redis` Python server
(`app/resp.py`, `app/expiry.py`, `app/commands.py`, `app/replication.py`,
`app/main.py`) and proofs about the specification's claims.

Python strings are modelled as Lean `String` (`len` = codepoint count, exactly
as Python's `len` on `str`), Python `dict` as an insertion-ordered association
list with unique keys, Python `int` as `Int`, and Python exceptions
(`IndexError`, `ValueError`, `TypeError`, failed reads) as `Except String` /
`Option` failures.  The wall clock (`time.time()`) is passed in explicitly as a
parameter wherever the Python code reads it.
-/

namespace Redis

/-- Python `d.get(key)`: first (unique) binding of `key` in the dict. -/
def dictGet {β : Type} : List (String × β) → String → Option β
  | [], _ => Option.none
  | (k, v) :: rest, key => if k = key then some v else dictGet rest key

/-- Python `d[key] = val`: replace the binding in place, else append (dicts
preserve insertion order). -/
def dictSet {β : Type} : List (String × β) → String → β → List (String × β)
  | [], key, val => [(key, val)]
  | (k, v) :: rest, key, val =>
      if k = key then (k, val) :: rest else (k, v) :: dictSet rest key val

/-- Python `del d[key]`. -/
def dictDel {β : Type} : List (String × β) → String → List (String × β)
  | [], _ => []
  | (k, v) :: rest, key => if k = key then rest else (k, v) :: dictDel rest key

/-- Python `list(d.keys())`. -/
def dictKeys {β : Type} (d : List (String × β)) : List String := d.map (·.1)

/-- Python `l[i]` for a non-negative index: raises `IndexError` out of range. -/
def pyIndex {α : Type} (l : List α) (i : Nat) : Except String α :=
  match l.get? i with
  | some a => .ok a
  | Option.none => .error "IndexError"

/-- Value of a decimal digit string, folded left with accumulator `a`. -/
def digitsVal (l : List Char) (a : Nat) : Nat :=
  l.foldl (fun acc c => acc * 10 + (c.toNat - 48)) a

/-- Python `int(s)` restricted to the grammar that actually occurs on this
code's wire data: an optional minus sign followed by one or more decimal
digits.  Other forms Python would accept (surrounding whitespace, a leading
`+`, `_` separators) never arise here and are mapped to `ValueError` too. -/
def pyIntChars : List Char → Except String Int
  | [] => .error "ValueError"
  | c :: rest =>
      if c = '-' then
        if rest ≠ [] ∧ rest.all Char.isDigit then .ok (-(Int.ofNat (digitsVal rest 0)))
        else .error "ValueError"
      else
        if (c :: rest).all Char.isDigit then .ok (Int.ofNat (digitsVal (c :: rest) 0))
        else .error "ValueError"

/-- Python `int(s)` on a `str`. -/
def pyInt (s : String) : Except String Int := pyIntChars s.data

/-- Python `<` on strings: lexicographic comparison of code points. -/
def strLtB : List Char → List Char → Bool
  | [], [] => false
  | [], _ :: _ => true
  | _ :: _, [] => false
  | c :: a, d :: b =>
      if c.toNat < d.toNat then true
      else if d.toNat < c.toNat then false
      else strLtB a b

/-- Python `sorted(l)[-1]` for a nonempty list `l` of strings: its maximum
under Python string comparison (every string is `>= ""`, the seed). -/
def listMaxStr (l : List String) : String :=
  l.foldl (fun acc s => if strLtB acc.data s.data then s else acc) ""

/-- Helper for `pySplitDash`: accumulates the current field in reverse. -/
def pySplitDashAux : List Char → List Char → List String
  | [], acc => [acc.reverse.asString]
  | c :: rest, acc =>
      if c = '-' then acc.reverse.asString :: pySplitDashAux rest []
      else pySplitDashAux rest (c :: acc)

/-- Python `s.split("-")`: split on every occurrence of `-`, keeping empty
fields (`"a--b".split("-") == ["a", "", "b"]`). -/
def pySplitDash (s : String) : List String := pySplitDashAux s.data []

/-- Length of a string concatenation. -/
theorem strLen_append (a b : String) : (a ++ b).length = a.length + b.length := by
  show (a ++ b).data.length = a.data.length + b.data.length
  rw [String.data_append, List.length_append]

/-- Decimal digits produced by `Nat.toDigitsCore` in base 10: the output is
the input accumulator prefixed by a nonempty, all-digit block whose value is
the number being rendered. -/
theorem toDigitsCore_spec : ∀ (fuel n : Nat) (ds : List Char), n < fuel →
    ∃ pre, Nat.toDigitsCore 10 fuel n ds = pre ++ ds ∧ pre ≠ [] ∧
      (∀ c ∈ pre, c.isDigit = true) ∧ digitsVal pre 0 = n := by
  intro fuel
  induction fuel with
  | zero => omega
  | succ f ih =>
    intro n ds _
    rw [Nat.toDigitsCore]
    by_cases h10 : n / 10 = 0
    · refine ⟨[Nat.digitChar (n % 10)], by simp [h10], by simp, ?_, ?_⟩
      · intro c hc
        simp at hc
        subst hc
        have : n % 10 < 10 := Nat.mod_lt _ (by omega)
        interval_cases h : (n % 10) <;> simp [h, Nat.digitChar]
      · have hn : n < 10 := by omega
        have heq : n % 10 = n := Nat.mod_eq_of_lt hn
        rw [heq]
        unfold digitsVal
        simp only [List.foldl]
        have : (Nat.digitChar n).toNat - 48 = n := by
          interval_cases n <;> decide
        simp [this]
    · have hn10 : n / 10 < f := by
        have h1 : n / 10 < n := Nat.div_lt_self (by omega) (by omega)
        omega
      obtain ⟨pre, heq, hne, hdig, hval⟩ := ih (n / 10) (Nat.digitChar (n % 10) :: ds) hn10
      rw [if_neg h10, heq]
      refine ⟨pre ++ [Nat.digitChar (n % 10)], by simp, by simp, ?_, ?_⟩
      · intro c hc
        rcases List.mem_append.mp hc with h | h
        · exact hdig c h
        · simp at h
          subst h
          have : n % 10 < 10 := Nat.mod_lt _ (by omega)
          interval_cases h : (n % 10) <;> simp [h, Nat.digitChar]
      · unfold digitsVal at hval ⊢
        rw [List.foldl_append]
        simp only [List.foldl]
        rw [hval]
        have hm : n % 10 < 10 := Nat.mod_lt _ (by omega)
        have hd : (Nat.digitChar (n % 10)).toNat - 48 = n % 10 := by
          interval_cases h : (n % 10) <;> simp [h, Nat.digitChar]
        rw [hd]
        omega

/-- `str(n)` for a natural number: nonempty, all decimal digits, and its
digit value is `n` again. -/
theorem natRepr_spec (n : Nat) : (toString n).data ≠ [] ∧
    (∀ c ∈ (toString n).data, c.isDigit = true) ∧ digitsVal (toString n).data 0 = n := by
  obtain ⟨pre, heq, hne, hdig, hval⟩ := toDigitsCore_spec (n + 1) n [] (by omega)
  have hdat : (toString n).data = pre := by
    show (Nat.repr n).data = pre
    rw [Nat.repr, Nat.toDigits, heq]
    simp [List.asString]
  rw [hdat]
  exact ⟨hne, hdig, hval⟩

/-- A decimal digit is not one of the characters with special meaning on the
wire or in stream IDs. -/
theorem digit_not_special {c : Char} (h : c.isDigit = true) :
    c ≠ '\r' ∧ c ≠ '\n' ∧ c ≠ '-' := by
  refine ⟨?_, ?_, ?_⟩ <;> intro hc <;> subst hc <;> simp [Char.isDigit] at h

/-- Python `int(str(n)) == n` for natural `n`. -/
theorem pyInt_toString_nat (n : Nat) : pyInt (toString n) = .ok (Int.ofNat n) := by
  obtain ⟨hne, hdig, hval⟩ := natRepr_spec n
  rw [pyInt]
  have hnotdash : ∀ c ∈ (toString n).data, c ≠ '-' := by
    intro c hc
    exact (digit_not_special (hdig c hc)).2.2
  cases hd : (toString n).data with
  | nil => exact absurd hd hne
  | cons c rest =>
    have hcne : c ≠ '-' := hnotdash c (by rw [hd]; simp)
    rw [hd] at hdig hval
    simp only [pyIntChars, if_neg hcne]
    rw [if_pos]
    · rw [hval]
    · exact List.all_eq_true.mpr hdig

/-- `str(i)` for an integer: either the digits of a natural number or `-`
followed by the digits of a positive natural number. -/
theorem intRepr_cases (i : Int) :
    (∃ n : Nat, i = Int.ofNat n ∧ toString i = toString n) ∨
    (∃ n : Nat, i = -(Int.ofNat (n + 1)) ∧ toString i = "-" ++ toString (n + 1)) := by
  cases i with
  | ofNat m => exact Or.inl ⟨m, rfl, rfl⟩
  | negSucc m => exact Or.inr ⟨m, by simp [Int.negSucc_eq], rfl⟩

/-- Python `int(str(i)) == i` for integer `i`. -/
theorem pyInt_toString_int (i : Int) : pyInt (toString i) = .ok i := by
  rcases intRepr_cases i with ⟨n, hi, hs⟩ | ⟨n, hi, hs⟩
  · rw [hs, pyInt_toString_nat, hi]
  · rw [hs, hi]
    obtain ⟨hne, hdig, hval⟩ := natRepr_spec (n + 1)
    rw [pyInt]
    have hdat : ("-" ++ toString (n + 1)).data = '-' :: (toString (n + 1)).data := by
      rw [String.data_append]
      rfl
    rw [hdat]
    simp only [pyIntChars, if_pos rfl]
    have hall : (toString (n + 1)).data.all Char.isDigit = true := by
      rw [List.all_eq_true]
      intro x hx
      simpa using hdig x hx
    rw [if_pos (And.intro hne hall), hval, if_pos trivial]

/-- The decimal rendering of an integer never contains CR, LF, and is
nonempty. -/
theorem intRepr_clean (i : Int) : (toString i).data ≠ [] ∧
    ∀ c ∈ (toString i).data, c ≠ '\r' ∧ c ≠ '\n' := by
  rcases intRepr_cases i with ⟨n, _, hs⟩ | ⟨n, _, hs⟩
  · obtain ⟨hne, hdig, _⟩ := natRepr_spec n
    rw [hs]
    exact ⟨hne, fun c hc => ⟨(digit_not_special (hdig c hc)).1,
      (digit_not_special (hdig c hc)).2.1⟩⟩
  · obtain ⟨hne, hdig, _⟩ := natRepr_spec (n + 1)
    rw [hs]
    have hdat : ("-" ++ toString (n + 1)).data = '-' :: (toString (n + 1)).data := by
      rw [String.data_append]
      rfl
    rw [hdat]
    refine ⟨by simp, ?_⟩
    intro c hc
    rcases List.mem_cons.mp hc with h | h
    · subst h
      exact ⟨by decide, by decide⟩
    · exact ⟨(digit_not_special (hdig c h)).1, (digit_not_special (hdig c h)).2.1⟩

/-- The decimal rendering of a natural number never contains CR or LF. -/
theorem natRepr_clean (n : Nat) : (toString n).data ≠ [] ∧
    ∀ c ∈ (toString n).data, c ≠ '\r' ∧ c ≠ '\n' := by
  have := intRepr_clean (Int.ofNat n)
  simpa using this

/-- A value stored in the keyspace dictionary: either a Python `str` (written
by `SET` and the RDB loader) or an instance of the `stream_key_type` marker
class (written by `XADD`; its `__init__` discards its argument, so the object
carries no data). -/
inductive Value where
  | str (s : String)
  | streamMarker
deriving DecidableEq

/-- `DATASTORE`: key -> `(value, expiry_timestamp)`, exactly the Python
global dict (expiry in absolute milliseconds, `0` = never expires). -/
abbrev Store := List (String × (Value × Int))

/-- `app/expiry.py`: `EXPIRY_TIMESTAMP_DEFAULT_VAL = 0`. -/
def EXPIRY_TIMESTAMP_DEFAULT_VAL : Int := 0

/-- `app/expiry.py` `check_key_expiration`: returns whether the key counts
as expired and the (possibly mutated) datastore.  `now_ms` stands for the
`int(time.time() * 1000)` the Python code reads. -/
def check_key_expiration (now_ms : Int) (store : Store) (key : String)
    (expiry_timestamp : Int) : Bool × Store :=
  if expiry_timestamp = EXPIRY_TIMESTAMP_DEFAULT_VAL then (false, store)
  else if now_ms > expiry_timestamp then (true, dictDel store key)
  else (false, store)

/-- `app/expiry.py` `get_expiry_timestamp`: parses the optional
`SET key value <opt> <n>` expiry arguments.  Note the comparison is with the
literal lowercase string `"ex"` only; every other option token falls through
to the millisecond branch.  `now_ms` stands for `int(time.time() * 1000)`. -/
def get_expiry_timestamp (now_ms : Nat) (msg : List String) : Except String Int :=
  if msg.length > 3 then do
    let opt ← pyIndex msg 3
    let expiry_str ← pyIndex msg 4
    let expiry ← pyInt expiry_str
    let expiry := if opt = "ex" then expiry * 1000 else expiry
    .ok ((now_ms : Int) + expiry)
  else .ok EXPIRY_TIMESTAMP_DEFAULT_VAL

/-- One iteration of the `while True` loop of `app/expiry.py`
`actively_expire_keys`.  `current_time` stands for `time.time()` — the clock
in SECONDS (the loop compares it directly against the stored millisecond
timestamps); Python compares the float against the int, which agrees with
integer comparison on the integral inputs used here. -/
def actively_expire_keys_once (current_time : Int) (store : Store) : Store :=
  let expired_keys := (store.filter (fun kv => current_time > kv.2.2)).map (·.1)
  expired_keys.foldl (fun s k => dictDel s k) store

/-- `RESPWriter.serialize_simple_string`. -/
def serialize_simple_string (data : String) : String := "+" ++ data ++ "\r\n"

/-- `RESPWriter.serialize_simple_error`. -/
def serialize_simple_error (data : String) : String := "-" ++ data ++ "\r\n"

/-- `RESPWriter.serialize_integer`. -/
def serialize_integer (data : Int) : String := ":" ++ toString data ++ "\r\n"

/-- `RESPWriter.serialize_bulk_string` on an `Optional[str]`: `if not data`
is true for both `None` and the empty string, so both serialize as the null
bulk string `$-1\r\n`. -/
def serialize_bulk_string (data : Option String) : String :=
  match data with
  | Option.none => "$-1\r\n"
  | some s => if s = "" then "$-1\r\n" else "$" ++ toString s.length ++ "\r\n" ++ s ++ "\r\n"

/-- The message of the `TypeError` raised by `len()` on a `stream_key_type`
instance inside `serialize_bulk_string`. -/
def typeErrorMsg : String := "TypeError: object of type stream_key_type has no len()"

/-- `RESPWriter.serialize_bulk_string` applied to a dynamically typed
datastore value, as `handle_get` does: a `stream_key_type` marker is truthy
(`if not data` is false) and then `len(data)` raises `TypeError`. -/
def serialize_bulk_string_dyn (data : Option Value) : Except String String :=
  match data with
  | Option.none => .ok (serialize_bulk_string Option.none)
  | some (Value.str s) => .ok (serialize_bulk_string (some s))
  | some Value.streamMarker => .error typeErrorMsg

/-- A decoded Python RESP value: `str`, `int`, `None`, or a `list` of such
(the only shapes `RESPReader.read_message` produces and
`RESPWriter.serialize_array` consumes). -/
inductive PyVal where
  | str (s : String)
  | int (n : Int)
  | null
  | list (l : List PyVal)

mutual

/-- One iteration of the `for obj in arr` loop body of
`RESPWriter.serialize_array`: `str` values via `serialize_bulk_string`,
`int` via `serialize_integer`, `list` recursively; any other value (such as
`None`) matches no branch and contributes nothing. -/
def serializeElem : PyVal → String
  | PyVal.str s => serialize_bulk_string (some s)
  | PyVal.int n => serialize_integer n
  | PyVal.null => ""
  | PyVal.list l => "*" ++ toString l.length ++ "\r\n" ++ serializeElems l

/-- The concatenation `response += ...` built by the `serialize_array` loop. -/
def serializeElems : List PyVal → String
  | [] => ""
  | v :: vs => serializeElem v ++ serializeElems vs

end

/-- Serialization of a top-level decoded value, dispatched by Python type the
way the writer methods are used: `str` → `write_bulk_string`, `int` →
`write_integer`, `None` → `write_bulk_string(None)` = `$-1\r\n`, `list` →
`write_array`. -/
def serializeTop : PyVal → String
  | PyVal.str s => serialize_bulk_string (some s)
  | PyVal.int n => serialize_integer n
  | PyVal.null => serialize_bulk_string Option.none
  | PyVal.list l => serializeElem (PyVal.list l)

/-- `RESPReader.get_byte_offset`: the byte counter used by replicas. -/
def get_byte_offset (message : List String) : Nat :=
  let offset := 2 * (2 * message.length + 1)
  let offset := offset + (toString message.length).length + 1
  message.foldl (fun off val => off + ((toString val.length).length + 1) + val.length) offset

/-- `RESPReader.read_line` / `StreamReader.readuntil(b"\r\n")`: the bytes up
to (excluding) the first CRLF and the remaining stream; `Option.none` when no
CRLF arrives (the read never completes normally). -/
def splitCRLF : List Char → Option (List Char × List Char)
  | [] => Option.none
  | [_] => Option.none
  | c :: d :: rest =>
      if c = '\r' ∧ d = '\n' then some ([], rest)
      else (splitCRLF (d :: rest)).map (fun p => (c :: p.1, p.2))

/-- `StreamReader.readexactly(n)`: exactly `n` bytes and the rest, failing on
a short read (`IncompleteReadError`). -/
def readExactly (n : Nat) (l : List Char) : Option (List Char × List Char) :=
  if n ≤ l.length then some (l.take n, l.drop n) else Option.none

/-- Python `data[:-2]`: drop the final two characters (all of them if the
string is shorter). -/
def dropLast2 (l : List Char) : List Char := l.dropLast.dropLast

/-- The `for _ in range(length)` loop of `RESPReader.read_array`: read `n`
messages with the given single-message reader. -/
def readMany (rd : List Char → Option (PyVal × List Char)) :
    Nat → List Char → Option (List PyVal × List Char)
  | 0, l => some ([], l)
  | n + 1, l =>
      match rd l with
      | Option.none => Option.none
      | some (v, r) =>
          match readMany rd n r with
          | Option.none => Option.none
          | some (vs, r2) => some (v :: vs, r2)

/-- `RESPReader.read_message` (with `read_simple_string`, `read_simple_error`,
`read_integer`, `read_bulk_string` and `read_array` inlined at their single
call sites).  `fuel` bounds the nesting depth of arrays — the Python code
recurses one level per nested array; every failure mode (short read,
unrecognized leading byte, `int()` raising `ValueError`, `readexactly` of a
negative count) is `Option.none`.  Notes kept faithful to the source:
`read_array` returns an empty list when the length line is empty, decodes
`*-1` as `None`, and a negative length yields an empty `range`, hence an
empty array; `read_bulk_string` decodes `$-1` as `None` and otherwise reads
`length + 2` bytes, trimming the last two. -/
def readMessage : Nat → List Char → Option (PyVal × List Char)
  | 0, _ => Option.none
  | _ + 1, [] => Option.none
  | fuel + 1, c :: input =>
      if c = '+' then
        (splitCRLF input).map (fun p => (PyVal.str p.1.asString, p.2))
      else if c = '-' then
        (splitCRLF input).map (fun p => (PyVal.str p.1.asString, p.2))
      else if c = ':' then
        match splitCRLF input with
        | Option.none => Option.none
        | some (d, r) =>
            match pyIntChars d with
            | .error _ => Option.none
            | .ok n => some (PyVal.int n, r)
      else if c = '$' then
        match splitCRLF input with
        | Option.none => Option.none
        | some (meta, r) =>
            match pyIntChars meta with
            | .error _ => Option.none
            | .ok len =>
                if len = -1 then some (PyVal.null, r)
                else if len + 2 < 0 then Option.none
                else
                  match readExactly (len + 2).toNat r with
                  | Option.none => Option.none
                  | some (d, r2) => some (PyVal.str (dropLast2 d).asString, r2)
      else if c = '*' then
        match splitCRLF input with
        | Option.none => Option.none
        | some (meta, r) =>
            if meta = [] then some (PyVal.list [], r)
            else
              match pyIntChars meta with
              | .error _ => Option.none
              | .ok len =>
                  if len = -1 then some (PyVal.null, r)
                  else if len < 0 then some (PyVal.list [], r)
                  else
                    match readMany (readMessage fuel) len.toNat r with
                    | Option.none => Option.none
                    | some (vs, r2) => some (PyVal.list vs, r2)
      else Option.none

/-- The `type_mapping` dict of `app/commands.py`. -/
def type_mapping : List (String × String) :=
  [("str", "string"), ("int", "integer"), ("float", "float"), ("list", "list"),
   ("dict", "hash"), ("set", "set"), ("bool", "boolean"), ("NoneType", "none"),
   ("stream_key_type", "stream")]

/-- Python `type(value).__name__` for a datastore value. -/
def value_type_name : Value → String
  | Value.str _ => "str"
  | Value.streamMarker => "stream_key_type"

/-- `handle_set`: stores `(value, get_expiry_timestamp(msg))` and replies
`+OK`.  `now_ms` is the clock read inside `get_expiry_timestamp`. -/
def handle_set (now_ms : Nat) (store : Store) (msg : List String) :
    Except String (String × Store) := do
  let key ← pyIndex msg 1
  let value ← pyIndex msg 2
  let expiry ← get_expiry_timestamp now_ms msg
  .ok (serialize_simple_string "OK", dictSet store key (Value.str value, expiry))

/-- `handle_get`: looks the key up (default `(None, 0)`), lazily expires it
via `check_key_expiration`, and writes the value as a bulk string — which
raises `TypeError` for a `stream_key_type` marker value. -/
def handle_get (now_ms : Int) (store : Store) (msg : List String) :
    Except String (String × Store) := do
  let key ← pyIndex msg 1
  let looked := dictGet store key
  let value : Option Value := looked.map Prod.fst
  let expiry_timestamp : Int := (looked.map Prod.snd).getD EXPIRY_TIMESTAMP_DEFAULT_VAL
  let expired_store := check_key_expiration now_ms store key expiry_timestamp
  let value := if expired_store.1 then Option.none else value
  let reply ← serialize_bulk_string_dyn value
  .ok (reply, expired_store.2)

/-- `handle_type`: reports the mapped type name of the stored value without
any expiry check (`datastore.get(key, (None, None))`). -/
def handle_type (store : Store) (msg : List String) : Except String String := do
  let key ← pyIndex msg 1
  let type_name :=
    match dictGet store key with
    | Option.none => "none"
    | some (v, _) => value_type_name v
  .ok (serialize_simple_string ((dictGet type_mapping type_name).getD "none"))

/-- `handle_config_get`: replies with `write_array([key, CONFIG.get(key)])`;
a missing key contributes a `None` element to the array. -/
def handle_config_get (config : List (String × String)) (msg : List String) :
    Except String String := do
  let key ← pyIndex msg 2
  let value : PyVal :=
    match dictGet config key with
    | Option.none => PyVal.null
    | some v => PyVal.str v
  .ok (serializeElem (PyVal.list [PyVal.str key, value]))

/-- `handle_list_keys`: asserts the pattern is `*` and replies with an array
of every key currently in the datastore dict — no expiry check at all. -/
def handle_list_keys (store : Store) (msg : List String) : Except String String := do
  let key ← pyIndex msg 1
  if key = "*" then
    .ok (serializeElem (PyVal.list ((dictKeys store).map PyVal.str)))
  else .error "AssertionError"

/-- One iteration of the GETACK-gathering loop of `handle_wait`: `reply` is
what was read from one replica (`Option.none` models the caught
`asyncio.TimeoutError`); on `["REPLCONF", "ACK", off]` with
`int(off) >= master_offset` the counter is incremented.  Indexing or `int()`
failures propagate (they are not caught by the `except TimeoutError`). -/
def ack_from_reply (master_offset : Int) (updated : Nat)
    (reply : Option (List String)) : Except String Nat :=
  match reply with
  | Option.none => .ok updated
  | some response => do
      let r0 ← pyIndex response 0
      if r0 = "REPLCONF" then do
        let r1 ← pyIndex response 1
        if r1 = "ACK" then do
          let r2 ← pyIndex response 2
          let repl_offset ← pyInt r2
          if repl_offset ≥ master_offset then .ok (updated + 1) else .ok updated
        else .ok updated
      else .ok updated

/-- The full GETACK-gathering loop of `handle_wait`. -/
def wait_count_acks (master_offset : Int) :
    List (Option (List String)) → Nat → Except String Nat
  | [], updated => .ok updated
  | reply :: rest, updated => do
      let updated2 ← ack_from_reply master_offset updated reply
      wait_count_acks master_offset rest updated2

/-- The integer `handle_wait` replies with: `len(replicas)` when
`master_offset == 0`, else the count of replicas whose acknowledged offset is
at least `master_offset`.  `num_replicas` (= `int(msg[1])`) is listed because
the Python code parses it, but it influences only the residual sleep before
the reply is written, never the replied value; `timeout` likewise. -/
def handle_wait_response (master_offset : Int) (num_replicas : Nat)
    (replies : List (Option (List String))) : Except String Int :=
  if master_offset = 0 then .ok (replies.length : Int)
  else do
    let updated ← wait_count_acks master_offset replies 0
    .ok (updated : Int)

/-- `XADD` writes either a simple-error reply or a bulk-string ID reply. -/
inductive XaddReply where
  | errReply (s : String)
  | idReply (s : String)
deriving DecidableEq

/-- The dynamic type of the Python local `current_sequence`, which holds an
`int` on some paths and a `str` on others. -/
inductive SeqVal where
  | int (n : Int)
  | str (s : String)
deriving DecidableEq

/-- One stream entry: the insertion-ordered field -> value dict built by the
`for i in range(0, len(stream_entry_list), 2)` loop. -/
abbrev StreamEntry := List (String × String)

/-- One stream: entry-ID string -> entry, in insertion order. -/
abbrev StreamData := List (String × StreamEntry)

/-- The module-level `streams` dict: stream key -> stream. -/
abbrev Streams := List (String × StreamData)

/-- Helper building the entry dict; an odd trailing field raises
`IndexError` (`stream_entry_list[i + 1]`). -/
def build_stream_entry_aux : List String → StreamEntry → Except String StreamEntry
  | [], acc => .ok acc
  | [_], _ => .error "IndexError"
  | f :: v :: rest, acc => build_stream_entry_aux rest (dictSet acc f v)

/-- The field/value pairing loop of `handle_xadd`. -/
def build_stream_entry (l : List String) : Except String StreamEntry :=
  build_stream_entry_aux l []

/-- Split an entry-ID string `"<ms>-<seq>"` into its two `int(...)` halves,
exactly as `stream_last_entry_id.split("-")` + unpacking + `int()` do;
any other shape raises (`ValueError`). -/
def parse_entry_id (s : String) : Except String (Int × Int) :=
  match pySplitDash s with
  | [a, b] => do
      let ts ← pyInt a
      let sq ← pyInt b
      .ok (ts, sq)
  | _ => .error "ValueError"

/-- `ERR` message for a resolved ID of `0-0`. -/
def xaddErrZero : String := "ERR The ID specified in XADD must be greater than 0-0"

/-- `ERR` message for an ID not above the stream's top item. -/
def xaddErrSmall : String :=
  "ERR The ID specified in XADD is equal or smaller than the target stream top item"

/-- The append tail of `handle_xadd` (lines 326-336): store the entry under
the resolved ID (a plain dict assignment — it overwrites an equal key),
publish the stream, and record the key in the datastore as a
`stream_key_type` marker with `get_expiry_timestamp([])`, i.e. no expiry. -/
def xadd_append (now_ms : Nat) (streams : Streams) (store : Store)
    (stream : StreamData) (stream_key new_id : String) (stream_entry : StreamEntry) :
    Except String (XaddReply × Streams × Store) := do
  let stream2 := dictSet stream new_id stream_entry
  let streams2 := dictSet streams stream_key stream2
  let expiry ← get_expiry_timestamp now_ms []
  let store2 := dictSet store stream_key (Value.streamMarker, expiry)
  .ok (XaddReply.idReply new_id, streams2, store2)

/-- `handle_xadd`.  Faithful points worth noting against the source:
the `*` argument sets `current_timestamp = int(time.time() * 1000)` (here the
parameter `now_ms`) and the *integer* `0` for `current_sequence`, so the
later `current_sequence == "*"` test is false on that path; the stream's
"top" entry is `sorted(list(stream.keys()))[-1]` — the maximum of the ID
*strings* under Python string comparison, not of the numeric pairs; the
`<ms>-*` path derives `last_seq + 1` or `0`/`1`; the two error replies
return without touching `streams` or the datastore. -/
def handle_xadd (now_ms : Nat) (streams : Streams) (store : Store)
    (msg : List String) : Except String (XaddReply × Streams × Store) := do
  let stream_key ← pyIndex msg 1
  let stream_entry_id ← pyIndex msg 2
  let stream_entry_list := msg.drop 3
  let stream_entry ← build_stream_entry stream_entry_list
  let stream := (dictGet streams stream_key).getD []
  let parsed ←
    if stream_entry_id = "*" then
      Except.ok ((now_ms : Int), SeqVal.int 0)
    else
      match pySplitDash stream_entry_id with
      | [a, b] => do
          let ts ← pyInt a
          Except.ok (ts, SeqVal.str b)
      | _ => Except.error "ValueError"
  let current_timestamp := parsed.1
  let last_id : Option String :=
    if stream.length > 0 then some (listMaxStr (dictKeys stream)) else Option.none
  let current_sequence : Int ←
    if parsed.2 = SeqVal.str "*" then
      match last_id with
      | Option.none => Except.ok (if current_timestamp ≠ 0 then (0 : Int) else 1)
      | some lid => do
          let lparsed ← parse_entry_id lid
          if current_timestamp = lparsed.1 then Except.ok (lparsed.2 + 1)
          else Except.ok (if current_timestamp ≠ 0 then (0 : Int) else 1)
    else
      match parsed.2 with
      | SeqVal.int n => Except.ok n
      | SeqVal.str s => pyInt s
  let new_id := toString current_timestamp ++ "-" ++ toString current_sequence
  if current_timestamp = 0 ∧ current_sequence = 0 then
    Except.ok (XaddReply.errReply xaddErrZero, streams, store)
  else
    match last_id with
    | some lid => do
        let lparsed ← parse_entry_id lid
        if current_timestamp < lparsed.1 ∨
            (current_timestamp ≤ lparsed.1 ∧ current_sequence ≤ lparsed.2) then
          Except.ok (XaddReply.errReply xaddErrSmall, streams, store)
        else xadd_append now_ms streams store stream stream_key new_id stream_entry
    | Option.none => xadd_append now_ms streams store stream stream_key new_id stream_entry

/-- Strict order on numeric stream-ID pairs `(ms, seq)` — the lexicographic
order the specification's stream invariant refers to. -/
def idPairLt (a b : Int × Int) : Prop :=
  a.1 < b.1 ∨ (a.1 = b.1 ∧ a.2 < b.2)

instance (a b : Int × Int) : Decidable (idPairLt a b) := by
  unfold idPairLt
  infer_instance

mutual

/-- Non-null well-formedness of a decoded value as an *array element*: the
serializer turns an empty string into null bulk and skips `None` elements
entirely, so those do not survive a round trip. -/
def goodElem : PyVal → Bool
  | PyVal.str s => decide (s ≠ "")
  | PyVal.int _ => true
  | PyVal.null => false
  | PyVal.list l => goodElemList l

/-- `goodElem` on every element of a list. -/
def goodElemList : List PyVal → Bool
  | [] => true
  | v :: vs => goodElem v && goodElemList vs

end

/-- Well-formedness of a decoded value as a *top-level* message: the null
bulk round-trips at top level. -/
def goodVal : PyVal → Bool
  | PyVal.null => true
  | PyVal.str s => decide (s ≠ "")
  | PyVal.int _ => true
  | PyVal.list l => goodElemList l

mutual

/-- Array-nesting depth of a value (the decoder's fuel requirement). -/
def pyDepth : PyVal → Nat
  | PyVal.list l => pyDepthList l + 1
  | _ => 1

/-- Maximum depth over a list of values. -/
def pyDepthList : List PyVal → Nat
  | [] => 0
  | v :: vs => max (pyDepth v) (pyDepthList vs)

end

theorem pyDepth_pos (m : PyVal) : 1 ≤ pyDepth m := by
  cases m <;> simp [pyDepth]

theorem pyDepth_le_of_mem {l : List PyVal} {m : PyVal} (h : m ∈ l) :
    pyDepth m ≤ pyDepthList l := by
  induction l with
  | nil => cases h
  | cons v vs ih =>
    rcases List.mem_cons.mp h with he | hm
    · subst he
      rw [pyDepthList]
      exact le_max_left _ _
    · rw [pyDepthList]
      exact le_trans (ih hm) (le_max_right _ _)

theorem goodElem_of_mem {l : List PyVal} {m : PyVal}
    (hl : goodElemList l = true) (h : m ∈ l) : goodElem m = true := by
  induction l with
  | nil => cases h
  | cons v vs ih =>
    rw [goodElemList, Bool.and_eq_true] at hl
    rcases List.mem_cons.mp h with he | hm
    · subst he
      exact hl.1
    · exact ih hl.2 hm

/-- `readuntil(b"\r\n")` on a stream that starts with a CR-free line. -/
theorem splitCRLF_append : ∀ (pre rest : List Char), '\r' ∉ pre →
    splitCRLF (pre ++ '\r' :: '\n' :: rest) = some (pre, rest)
  | [], rest, _ => by
    rw [List.nil_append, splitCRLF, if_pos ⟨rfl, rfl⟩]
  | c :: pre, rest, h => by
    have hc : c ≠ '\r' := fun hc => h (by simp [hc])
    have hrec := splitCRLF_append pre rest (fun hm => h (List.mem_cons_of_mem c hm))
    cases pre with
    | nil =>
      rw [List.cons_append, List.nil_append, splitCRLF,
        if_neg (fun hand => hc hand.1)]
      rw [List.nil_append] at hrec
      rw [hrec]
      rfl
    | cons c2 pre2 =>
      rw [List.cons_append, List.cons_append, splitCRLF,
        if_neg (fun hand => hc hand.1)]
      rw [List.cons_append] at hrec
      rw [hrec]
      rfl

/-- `readexactly` splits a stream at a known prefix length. -/
theorem readExactly_append (l1 l2 : List Char) :
    readExactly l1.length (l1 ++ l2) = some (l1, l2) := by
  rw [readExactly, if_pos (by simp), List.take_left, List.drop_left]

/-- `data[:-2]` undoes a CRLF suffix. -/
theorem dropLast2_append (l : List Char) : dropLast2 (l ++ ['\r', '\n']) = l := by
  rw [dropLast2]
  have hsplit2 : l ++ ['\r', '\n'] = (l ++ ['\r']) ++ ['\n'] := by simp
  rw [hsplit2, List.dropLast_concat, List.dropLast_concat]

theorem data_asString (s : String) : List.asString s.data = s := by
  cases s
  rfl

/-- Reading `l.length` messages off the concatenated serialization of `l`
yields `l`, given a reader that is correct on every element of `l`. -/
theorem readMany_serializeElems (rd : List Char → Option (PyVal × List Char))
    (l : List PyVal) (rest : List Char)
    (h : ∀ m ∈ l, ∀ r2 : List Char, rd ((serializeElem m).data ++ r2) = some (m, r2)) :
    readMany rd l.length ((serializeElems l).data ++ rest) = some (l, rest) := by
  induction l with
  | nil =>
    rw [serializeElems]
    rfl
  | cons v vs ih =>
    rw [serializeElems, List.length_cons, readMany]
    rw [String.data_append, List.append_assoc]
    simp only [h v (List.mem_cons_self v vs),
      ih (fun m hm r2 => h m (List.mem_cons_of_mem v hm) r2)]

/-- Round trip for array elements: `fuel` at least the nesting depth lets the
reader decode exactly what the writer produced, leaving the rest of the
stream untouched. -/
theorem readMessage_serializeElem : ∀ (fuel : Nat) (m : PyVal) (rest : List Char),
    goodElem m = true → pyDepth m ≤ fuel →
    readMessage fuel ((serializeElem m).data ++ rest) = some (m, rest) := by
  intro fuel
  induction fuel with
  | zero =>
    intro m rest _ hd
    have := pyDepth_pos m
    omega
  | succ f ih =>
    intro m rest hg hd
    cases m with
    | null => simp [goodElem] at hg
    | str s =>
      have hs : s ≠ "" := by simpa [goodElem] using hg
      obtain ⟨hne, hnocr⟩ := natRepr_clean s.length
      have hpre : '\r' ∉ (toString s.length).data := fun hm => ((hnocr _ hm).1 rfl)
      rw [serializeElem, serialize_bulk_string, if_neg hs]
      simp only [String.data_append, List.append_assoc, List.cons_append, List.nil_append,
        show ("$" : String).data = ['$'] from rfl,
        show ("\r\n" : String).data = ['\r', '\n'] from rfl]
      rw [readMessage]
      rw [if_neg (by decide), if_neg (by decide), if_neg (by decide), if_pos rfl]
      simp only [splitCRLF_append _ _ hpre]
      have hpy : pyIntChars (toString s.length).data = .ok ((s.length : Int)) :=
        pyInt_toString_nat s.length
      simp only [hpy]
      have hnn : (0 : Int) ≤ (s.length : Int) := Int.ofNat_nonneg _
      rw [if_neg (by omega), if_neg (by omega)]
      have hre : readExactly ((s.length : Int) + 2).toNat (s.data ++ '\r' :: '\n' :: rest)
          = some (s.data ++ ['\r', '\n'], rest) := by
        have h1 : ((s.length : Int) + 2).toNat = (s.data ++ ['\r', '\n']).length := by
          have h2 : s.data.length = s.length := rfl
          simp only [List.length_append, List.length_cons, List.length_nil, h2]
          omega
        rw [h1, show s.data ++ '\r' :: '\n' :: rest = (s.data ++ ['\r', '\n']) ++ rest from
          by simp]
        exact readExactly_append _ _
      simp only [hre]
      rw [dropLast2_append, data_asString]
    | int n =>
      obtain ⟨hne2, hnocr2⟩ := intRepr_clean n
      have hpre : '\r' ∉ (toString n).data := fun hm => ((hnocr2 _ hm).1 rfl)
      rw [serializeElem, serialize_integer]
      simp only [String.data_append, List.append_assoc, List.cons_append, List.nil_append,
        show (":" : String).data = [':'] from rfl,
        show ("\r\n" : String).data = ['\r', '\n'] from rfl]
      rw [readMessage]
      rw [if_neg (by decide), if_neg (by decide), if_pos rfl]
      simp only [splitCRLF_append _ _ hpre]
      have hpy : pyIntChars (toString n).data = .ok n := pyInt_toString_int n
      simp only [hpy]
    | list l =>
      have hgl : goodElemList l = true := by simpa [goodElem] using hg
      have hdl : pyDepthList l ≤ f := by
        have hdep : pyDepth (PyVal.list l) = pyDepthList l + 1 := rfl
        omega
      obtain ⟨hneN, hnocrN⟩ := natRepr_clean l.length
      have hpre : '\r' ∉ (toString l.length).data := fun hm => ((hnocrN _ hm).1 rfl)
      rw [serializeElem]
      simp only [String.data_append, List.append_assoc, List.cons_append, List.nil_append,
        show ("*" : String).data = ['*'] from rfl,
        show ("\r\n" : String).data = ['\r', '\n'] from rfl]
      rw [readMessage]
      rw [if_neg (by decide), if_neg (by decide), if_neg (by decide), if_neg (by decide),
        if_pos rfl]
      simp only [splitCRLF_append _ _ hpre]
      rw [if_neg hneN]
      have hpy : pyIntChars (toString l.length).data = .ok ((l.length : Int)) :=
        pyInt_toString_nat l.length
      simp only [hpy]
      have hnn : (0 : Int) ≤ (l.length : Int) := Int.ofNat_nonneg _
      rw [if_neg (by omega), if_neg (by omega)]
      have htn : ((l.length : Int)).toNat = l.length := rfl
      rw [htn]
      have hsub : ∀ m ∈ l, ∀ r2 : List Char,
          readMessage f ((serializeElem m).data ++ r2) = some (m, r2) :=
        fun m hm r2 => ih m r2 (goodElem_of_mem hgl hm)
          (le_trans (pyDepth_le_of_mem hm) hdl)
      simp only [readMany_serializeElems (readMessage f) l rest hsub]

/-- Round trip for top-level messages (helper shared by later results). -/
theorem readMessage_serializeTop (fuel : Nat) (m : PyVal) (rest : List Char)
    (hg : goodVal m = true) (hd : pyDepth m ≤ fuel) :
    readMessage fuel ((serializeTop m).data ++ rest) = some (m, rest) := by
  cases m with
  | null =>
    cases fuel with
    | zero =>
      have := pyDepth_pos PyVal.null
      omega
    | succ f =>
      rw [serializeTop, serialize_bulk_string]
      simp only [show ("$-1\r\n" : String).data = ['$', '-', '1', '\r', '\n'] from rfl,
        List.cons_append, List.nil_append]
      rw [readMessage]
      rw [if_neg (by decide), if_neg (by decide), if_neg (by decide), if_pos rfl]
      have hsp : splitCRLF ('-' :: '1' :: '\r' :: '\n' :: rest) = some (['-', '1'], rest) :=
        splitCRLF_append ['-', '1'] rest (by decide)
      simp only [hsp]
      simp only [show pyIntChars ['-', '1'] = .ok (-1) from rfl]
      simp
  | str s =>
    exact readMessage_serializeElem fuel (PyVal.str s) rest
      (by simpa [goodElem, goodVal] using hg) hd
  | int n =>
    exact readMessage_serializeElem fuel (PyVal.int n) rest (by simp [goodElem]) hd
  | list l =>
    exact readMessage_serializeElem fuel (PyVal.list l) rest
      (by simpa [goodElem, goodVal] using hg) hd

/-- Claim C5 (amended): the codec round-trips every decoded message built of
integers, non-empty strings (bulk bodies may contain CRLF), the top-level
null bulk, and arrays of such values, given reader fuel at least the array
nesting depth.  (The empty bulk string re-decodes as null — see the
counterexample — and `None` or empty-string elements *inside* an array are
dropped or nulled by the writer, so those are excluded.) -/
theorem codec_roundtrip (fuel : Nat) (m : PyVal) (rest : List Char)
    (hg : goodVal m = true) (hd : pyDepth m ≤ fuel) :
    readMessage fuel ((serializeTop m).data ++ rest) = some (m, rest) :=
  readMessage_serializeTop fuel m rest hg hd

/-- Claim C1 (code bug): three successive XADDs `9-1`, `10-0`, `9-2` into one
stream all succeed, because the "top item" check compares against the maximum
of the ID *strings* (`"9-1" > "10-0"` in string order); the appended ID
`(9, 2)` is numerically smaller than the already-present `(10, 0)`, so the
stream's IDs are not strictly increasing under lexicographic `(ms, seq)`
order as the specification's invariant demands. -/
theorem xadd_string_sort_breaks_id_monotonicity :
    handle_xadd 1000 [] [] ["XADD", "s", "9-1", "a", "1"] =
      .ok (XaddReply.idReply "9-1",
        [("s", [("9-1", [("a", "1")])])],
        [("s", (Value.streamMarker, 0))]) ∧
    handle_xadd 1000 [("s", [("9-1", [("a", "1")])])] [("s", (Value.streamMarker, 0))]
        ["XADD", "s", "10-0", "a", "2"] =
      .ok (XaddReply.idReply "10-0",
        [("s", [("9-1", [("a", "1")]), ("10-0", [("a", "2")])])],
        [("s", (Value.streamMarker, 0))]) ∧
    handle_xadd 1000 [("s", [("9-1", [("a", "1")]), ("10-0", [("a", "2")])])]
        [("s", (Value.streamMarker, 0))] ["XADD", "s", "9-2", "a", "3"] =
      .ok (XaddReply.idReply "9-2",
        [("s", [("9-1", [("a", "1")]), ("10-0", [("a", "2")]), ("9-2", [("a", "3")])])],
        [("s", (Value.streamMarker, 0))]) ∧
    "10-0" ∈ dictKeys [("9-1", [("a", "1")]), ("10-0", [("a", "2")])] ∧
    parse_entry_id "9-2" = .ok (9, 2) ∧
    parse_entry_id "10-0" = .ok (10, 0) ∧
    idPairLt (9, 2) (10, 0) :=
  ⟨rfl, rfl, rfl, by decide, rfl, rfl, by decide⟩

/-- Claim C2 (code bug): one sweep of `actively_expire_keys` at clock
`time.time() = 1700000000` deletes a key whose `expiry_ms` is `0` (the
"never expires" sentinel — the loop has no `== 0` guard, and any positive
clock exceeds `0`), while a key whose millisecond expiry `1600000000000` is
already in the past (the clock in ms would be `1700000000000`) survives,
because the loop compares the clock in seconds against timestamps in
milliseconds. -/
theorem active_sweep_deletes_never_expiring_key :
    actively_expire_keys_once 1700000000 [("k", (Value.str "v", 0))] = [] ∧
    actively_expire_keys_once 1700000000 [("j", (Value.str "w", 1600000000000))] =
      [("j", (Value.str "w", 1600000000000))] :=
  ⟨rfl, rfl⟩

/-- Claim C3, counterexample: with the clock at `now_ms = 10`, a key whose
expiry timestamp `5` is nonzero and already past is still listed by
`KEYS *` and still reported as `string` by `TYPE` — neither read removes it
or reports it absent, contradicting the claim that every read operation
(GET, TYPE, KEYS) lazily expires such entries. -/
theorem keys_and_type_observe_expired_entry :
    handle_list_keys [("k", (Value.str "v", 5))] ["KEYS", "*"] =
      .ok "*1\r\n$1\r\nk\r\n" ∧
    handle_type [("k", (Value.str "v", 5))] ["TYPE", "k"] = .ok "+string\r\n" ∧
    (5 : Int) ≠ EXPIRY_TIMESTAMP_DEFAULT_VAL ∧ (10 : Int) > 5 :=
  ⟨rfl, rfl, by decide, by decide⟩

/-- Claim C4, counterexample: on the one-element array whose element is the
empty string, `get_byte_offset` answers 10 but the serialized form is
`*1\r\n$-1\r\n` (9 bytes), because `serialize_bulk_string` encodes the empty
string as a null bulk string. -/
theorem byte_offset_wrong_on_empty_string_element :
    get_byte_offset [""] ≠ (serializeElem (PyVal.list ([""].map PyVal.str))).length := by
  decide

/-- Claim C5, counterexample: the decoded message `""` (an empty bulk string,
decodable from `$0\r\n\r\n`) serializes to `$-1\r\n` and re-decodes to
`None`, not to `""`. -/
theorem roundtrip_fails_on_empty_bulk_string :
    readMessage 2 ("$0\r\n\r\n").data = some (PyVal.str "", []) ∧
    serializeTop (PyVal.str "") = "$-1\r\n" ∧
    readMessage 2 (serializeTop (PyVal.str "")).data = some (PyVal.null, []) ∧
    PyVal.null ≠ PyVal.str "" :=
  ⟨rfl, rfl, rfl, fun h => PyVal.noConfusion h⟩

/-- Claim C6, counterexample: `XADD s * ...` at `now_ms = 0` into an empty
stream resolves to `(0, 0)` — the `*` branch assigns the integer `0` to
`current_sequence`, so the `current_sequence == "*"` fallback that would
produce `0-1` is never taken — and the handler replies with the
greater-than-0-0 error instead of ID `0-1`. -/
theorem xadd_star_at_zero_clock_errors :
    handle_xadd 0 [] [] ["XADD", "s", "*", "a", "b"] =
      .ok (XaddReply.errReply xaddErrZero, [], []) := rfl

/-- Claim C7, counterexample: `SET k v EX 5` with the *uppercase* option
token at `now_ms = 100` stores expiry `105` — the option is compared only
against the lowercase literal `"ex"`, so `EX` falls into the millisecond
branch — not the `100 + 1000 * 5 = 5100` that case-insensitive parsing would
give. -/
theorem set_uppercase_ex_treated_as_milliseconds :
    get_expiry_timestamp 100 ["SET", "k", "v", "EX", "5"] = .ok 105 ∧
    (105 : Int) ≠ 100 + 1000 * 5 :=
  ⟨rfl, by decide⟩

/-- Claim C8, counterexample: with master offset `3`, requested
`numreplicas = 1` and three replicas all acknowledging offset `5`, the WAIT
reply is `3` — the count is never capped at the requested `n`. -/
theorem wait_reply_exceeds_requested_count :
    handle_wait_response 3 1
      [some ["REPLCONF", "ACK", "5"], some ["REPLCONF", "ACK", "5"],
       some ["REPLCONF", "ACK", "5"]] = .ok 3 ∧
    (3 : Int) > 1 :=
  ⟨rfl, by decide⟩

/-- Claim C9, counterexample: `CONFIG GET dir` with `dir` absent from the
configuration replies `*2\r\n$3\r\ndir\r\n` — a frame that declares two
elements but encodes only one (`serialize_array` silently skips the `None`
value), so decoding the reply fails. -/
theorem config_get_missing_key_malformed_reply :
    handle_config_get [] ["CONFIG", "GET", "dir"] = .ok "*2\r\n$3\r\ndir\r\n" ∧
    readMessage 10 ("*2\r\n$3\r\ndir\r\n").data = Option.none :=
  ⟨rfl, rfl⟩

/-- Sum of the per-element byte contributions `len(str(len(e))) + 1 + len(e)`
that `get_byte_offset` adds for each array element. -/
def bulkSizes : List String → Nat
  | [] => 0
  | s :: rest => ((toString s.length).length + 1) + s.length + bulkSizes rest

/-- The `get_byte_offset` loop is the sum of the per-element contributions. -/
theorem foldl_body_bulkSizes (l : List String) : ∀ init : Nat,
    l.foldl (fun off val => off + ((toString val.length).length + 1) + val.length) init
      = init + bulkSizes l := by
  induction l with
  | nil => intro init; simp [bulkSizes]
  | cons s rest ih =>
    intro init
    rw [List.foldl_cons, ih, bulkSizes]
    omega

/-- Serialized length of one non-empty bulk string:
`1 + len(str(len(s))) + 2 + len(s) + 2`. -/
theorem bulk_string_length (s : String) (hs : s ≠ "") :
    (serialize_bulk_string (some s)).length = (toString s.length).length + s.length + 5 := by
  rw [serialize_bulk_string]
  simp only [if_neg hs]
  rw [strLen_append, strLen_append, strLen_append, strLen_append]
  have h1 : ("$" : String).length = 1 := rfl
  have h2 : ("\r\n" : String).length = 2 := rfl
  rw [h1, h2]
  omega

/-- Serialized length of the element concatenation of an all-string array
with non-empty elements. -/
theorem serializeElems_strs_length (l : List String) (h : ∀ s ∈ l, s ≠ "") :
    (serializeElems (l.map PyVal.str)).length = bulkSizes l + 4 * l.length := by
  induction l with
  | nil => rfl
  | cons s rest ih =>
    rw [List.map_cons]
    rw [serializeElems, strLen_append]
    have hs : s ≠ "" := h s (by simp)
    have hb : (serializeElem (PyVal.str s)).length =
        (toString s.length).length + s.length + 5 := by
      rw [serializeElem]
      exact bulk_string_length s hs
    rw [hb, ih (fun x hx => h x (by simp [hx])), bulkSizes, List.length_cons]
    omega

/-- Claim C4 (amended): for every array of *non-empty* strings,
`get_byte_offset` returns exactly the length of the serialized RESP array
with each element encoded as a bulk string.  (An empty-string element is
serialized as the 5-byte null bulk `$-1\r\n` while the counter charges it
2 bytes, so the equality fails there; see the counterexample.) -/
theorem byte_offset_eq_serialized_length (message : List String)
    (h : ∀ s ∈ message, s ≠ "") :
    get_byte_offset message =
      (serializeElem (PyVal.list (message.map PyVal.str))).length := by
  rw [serializeElem]
  rw [strLen_append, strLen_append, strLen_append]
  have h1 : ("*" : String).length = 1 := rfl
  have h2 : ("\r\n" : String).length = 2 := rfl
  rw [h1, h2, List.length_map]
  rw [serializeElems_strs_length message h]
  simp only [get_byte_offset]
  rw [foldl_body_bulkSizes]
  omega

@[simp] theorem ok_bind {α β ε : Type} (a : α) (f : α → Except ε β) :
    (Except.ok a >>= f) = f a := rfl

@[simp] theorem error_bind {α β ε : Type} (e : ε) (f : α → Except ε β) :
    ((Except.error e : Except ε α) >>= f) = Except.error e := rfl

/-- A key that is not among a dict's keys looks up to nothing. -/
theorem dictGet_eq_none_of_not_mem {β : Type} {l : List (String × β)} {k : String}
    (h : k ∉ dictKeys l) : dictGet l k = Option.none := by
  induction l with
  | nil => rfl
  | cons p rest ih =>
    obtain ⟨k0, v0⟩ := p
    simp [dictKeys] at h
    rw [dictGet, if_neg (fun he => h.1 he.symm)]
    exact ih (by simp [dictKeys, h.2])

/-- Deleting a key from a duplicate-free dict makes it unfindable — a Python
dict always has unique keys. -/
theorem dictGet_dictDel_self {β : Type} {l : List (String × β)} {k : String}
    (h : (dictKeys l).Nodup) : dictGet (dictDel l k) k = Option.none := by
  induction l with
  | nil => rfl
  | cons p rest ih =>
    obtain ⟨k0, v0⟩ := p
    simp [dictKeys] at h
    by_cases he : k0 = k
    · rw [dictDel, if_pos he]
      subst he
      exact dictGet_eq_none_of_not_mem (by simpa [dictKeys] using h.1)
    · rw [dictDel, if_neg he, dictGet, if_neg he]
      exact ih h.2

/-- Setting a key makes it look up to the new value. -/
theorem dictGet_dictSet_self {β : Type} (l : List (String × β)) (k : String) (v : β) :
    dictGet (dictSet l k v) k = some v := by
  induction l with
  | nil => simp [dictSet, dictGet]
  | cons p rest ih =>
    obtain ⟨k0, v0⟩ := p
    by_cases he : k0 = k
    · rw [dictSet, if_pos he, dictGet, if_pos he]
    · rw [dictSet, if_neg he, dictGet, if_neg he]
      exact ih

/-- Claim C7 (amended): the expiry timestamp `SET` stores is
`now_ms + n * 1000` exactly when the option token is the lowercase literal
`"ex"`; any other token — including `"EX"`, `"PX"`, `"px"` — lands in the
millisecond branch and stores `now_ms + n`; with no option the timestamp is
`0`.  Option parsing is case-sensitive, not case-insensitive. -/
theorem set_stored_expiry_timestamp (now : Nat) (store : Store) (k v opt : String)
    (n : Nat) :
    handle_set now store ["SET", k, v, opt, toString n] =
      .ok (serialize_simple_string "OK",
        dictSet store k (Value.str v,
          (now : Int) + (if opt = "ex" then (n : Int) * 1000 else (n : Int)))) ∧
    handle_set now store ["SET", k, v] =
      .ok (serialize_simple_string "OK",
        dictSet store k (Value.str v, EXPIRY_TIMESTAMP_DEFAULT_VAL)) := by
  constructor
  · simp [handle_set, pyIndex, get_expiry_timestamp, pyInt_toString_nat]
  · simp [handle_set, pyIndex, get_expiry_timestamp]

/-- Claim C3 (amended): lazy expiry happens on the GET read path only.  Any
`GET` that finds an entry with `expiry_ms ≠ 0` and `now_ms > expiry_ms`
removes the entry and replies with the null bulk string, so a `GET` caller
never observes such a key; `KEYS` and `TYPE` perform no expiry check (see the
counterexample). -/
theorem get_lazily_expires (now e : Int) (store : Store) (k : String) (v : Value)
    (hmem : dictGet store k = some (v, e)) (hne : e ≠ 0) (hlt : now > e)
    (hnodup : (dictKeys store).Nodup) :
    handle_get now store ["GET", k] =
      .ok (serialize_bulk_string Option.none, dictDel store k) ∧
    dictGet (dictDel store k) k = Option.none := by
  constructor
  · simp only [handle_get, pyIndex, List.get?, ok_bind, hmem, Option.map_some',
      Option.getD_some, check_key_expiration, EXPIRY_TIMESTAMP_DEFAULT_VAL]
    rw [if_neg hne, if_pos hlt]
    simp [serialize_bulk_string_dyn]
  · exact dictGet_dictDel_self hnodup

/-- Encode one replica acknowledgement for `handle_wait`: `Option.none` is a
timed-out read, `some k` an `["REPLCONF", "ACK", str(k)]` reply. -/
def encodeAck (a : Option Nat) : Option (List String) :=
  a.map (fun k => ["REPLCONF", "ACK", toString k])

/-- Whether an (abstract) acknowledgement counts against master offset `mo`. -/
def ackOk (mo : Int) : Option Nat → Bool
  | Option.none => false
  | some k => decide (mo ≤ (k : Int))

/-- The GETACK loop counts exactly the well-formed acknowledgements whose
offset is at least the master offset. -/
theorem wait_count_acks_spec (mo : Int) (acks : List (Option Nat)) (u : Nat) :
    wait_count_acks mo (acks.map encodeAck) u = .ok (u + acks.countP (ackOk mo)) := by
  induction acks generalizing u with
  | nil => simp [wait_count_acks]
  | cons a rest ih =>
    cases a with
    | none =>
      rw [List.map_cons]
      rw [wait_count_acks]
      simp only [encodeAck, Option.map_none', ack_from_reply, ok_bind]
      rw [ih]
      simp [List.countP_cons, ackOk]
    | some k =>
      rw [List.map_cons]
      rw [wait_count_acks]
      simp only [encodeAck, Option.map_some', ack_from_reply, pyIndex, List.get?, ok_bind,
        if_pos rfl, if_true, eq_self_iff_true]
      rw [show pyInt (toString k) = .ok (Int.ofNat k) from pyInt_toString_nat k]
      simp only [ok_bind]
      by_cases hge : (Int.ofNat k) ≥ mo
      · rw [if_pos hge]
        simp only [ok_bind]
        rw [ih, List.countP_cons]
        have hp : ackOk mo (some k) = true := by
          simp only [ackOk, decide_eq_true_eq]
          exact hge
        simp [hp]
        omega
      · rw [if_neg hge]
        simp only [ok_bind]
        rw [ih, List.countP_cons]
        have hp : ackOk mo (some k) = false := by
          simp only [ackOk, decide_eq_false_iff_not]
          exact hge
        simp [hp]

/-- Inversion principle for a successful `Except` bind. -/
theorem bind_eq_ok {α β ε : Type} {x : Except ε α} {f : α → Except ε β} {b : β} :
    (x >>= f) = .ok b ↔ ∃ a, x = .ok a ∧ f a = .ok b := by
  cases x <;> simp [Except.bind]

/-- Claim C6 (amended): `XADD key * ...` always resolves the ID to
`(now_ms, 0)` — the sequence is the hard-coded integer `0`, whatever the
stream contains — so into an empty stream with `now_ms ≠ 0` it succeeds with
ID `now_ms-0`.  (At `now_ms = 0` the resolved `(0, 0)` triggers the
greater-than-0-0 error rather than producing `0-1`; see the
counterexample.) -/
theorem xadd_star_resolution (now : Nat) (streams : Streams) (store : Store)
    (key : String) (fields : List String) (entry : StreamEntry)
    (hnow : now ≠ 0) (hempty : dictGet streams key = Option.none)
    (hentry : build_stream_entry fields = .ok entry) :
    handle_xadd now streams store ("XADD" :: key :: "*" :: fields) =
      .ok (XaddReply.idReply (toString now ++ "-" ++ "0"),
        dictSet streams key [(toString now ++ "-" ++ "0", entry)],
        dictSet store key (Value.streamMarker, 0)) := by
  have hdrop : List.drop 3 ("XADD" :: key :: "*" :: fields) = fields := rfl
  simp only [handle_xadd, pyIndex, List.get?, ok_bind, hdrop, hentry, hempty,
    Option.getD_none, if_pos rfl]
  have hseq : (((now : Nat) : Int), SeqVal.int 0).2 ≠ SeqVal.str "*" := by
    simp
  rw [if_neg hseq]
  simp only [List.length_nil, gt_iff_lt, lt_self_iff_false, if_false, ok_bind, if_true,
    eq_self_iff_true, and_true]
  rw [if_neg (show ¬((now : Int) = 0) from fun hc => hnow (by exact_mod_cast hc))]
  simp only [xadd_append, get_expiry_timestamp, ok_bind]
  rfl

/-- A successful `xadd_append` always records the stream key in the
datastore as a `stream_key_type` marker with expiry `0`. -/
theorem xadd_append_ds {now : Nat} {streams : Streams} {store : Store}
    {stream : StreamData} {stream_key new_id : String} {entry : StreamEntry}
    {r : XaddReply} {ss : Streams} {ds : Store}
    (h : xadd_append now streams store stream stream_key new_id entry =
      .ok (r, ss, ds)) :
    ds = dictSet store stream_key (Value.streamMarker, 0) := by
  have hexp : get_expiry_timestamp now [] = .ok 0 := rfl
  rw [xadd_append, hexp] at h
  simp only [ok_bind, Except.ok.injEq, Prod.mk.injEq] at h
  exact h.2.2.symm

/-- Claim C10: any key written by a successful `XADD` holds the
`stream_key_type` marker with expiry `0`, and `handle_get` on it reaches
`serialize_bulk_string` with the non-string marker, where `len(data)` raises
`TypeError` — no RESP reply is produced. -/
theorem get_after_xadd_raises_type_error (now2 : Int) (now : Nat)
    (streams : Streams) (store : Store) (c key : String) (rest : List String)
    (i : String) (ss : Streams) (ds : Store)
    (h : handle_xadd now streams store (c :: key :: rest) =
      .ok (XaddReply.idReply i, ss, ds)) :
    handle_get now2 ds ["GET", key] = .error typeErrorMsg := by
  have hds : ds = dictSet store key (Value.streamMarker, 0) := by
    simp only [handle_xadd, pyIndex, List.get?, ok_bind] at h
    cases rest with
    | nil => simp [Except.bind] at h
    | cons id2 rest2 =>
      simp only [List.get?, ok_bind] at h
      rw [bind_eq_ok] at h
      obtain ⟨entry, hbe, h⟩ := h
      repeat'
        first
        | (simp only [error_bind] at h)
        | (rw [bind_eq_ok] at h; obtain ⟨_, _, h⟩ := h)
        | split at h
      all_goals
        first
        | simp at h
        | exact xadd_append_ds h
  subst hds
  simp only [handle_get, pyIndex, List.get?, ok_bind,
    dictGet_dictSet_self store key (Value.streamMarker, 0), Option.map_some',
    Option.getD_some, check_key_expiration, EXPIRY_TIMESTAMP_DEFAULT_VAL, if_pos rfl]
  simp [serialize_bulk_string_dyn, Except.bind]

/-- Claim C8 (amended): `WAIT` replies `len(replicas)` whenever the master
offset is `0` (regardless of the requested count), and otherwise replies the
*full* number of replicas that acknowledged an offset `≥` the master offset —
the value is never capped at the requested `numreplicas` (see the
counterexample). -/
theorem wait_response_spec (mo : Int) (n m : Nat)
    (replies : List (Option (List String))) (acks : List (Option Nat)) (h : mo ≠ 0) :
    handle_wait_response 0 n replies = .ok (replies.length : Int) ∧
    handle_wait_response mo m (acks.map encodeAck) =
      .ok ((acks.countP (ackOk mo) : Nat) : Int) := by
  constructor
  · simp [handle_wait_response]
  · rw [handle_wait_response, if_neg h]
    rw [wait_count_acks_spec]
    simp

/-- Claim C9 (amended): when the requested name is present in the
configuration with a non-empty value (and the name itself is non-empty), the
`CONFIG GET` reply is a well-formed two-element array that decodes back to
`[name, value]`.  (With the name absent the emitted frame declares two
elements but encodes one; see the counterexample.) -/
theorem config_get_present_reply (config : List (String × String)) (key v : String)
    (fuel : Nat) (hk : key ≠ "") (hv : v ≠ "") (hfound : dictGet config key = some v)
    (hfuel : 2 ≤ fuel) :
    handle_config_get config ["CONFIG", "GET", key] =
      .ok (serializeElem (PyVal.list [PyVal.str key, PyVal.str v])) ∧
    readMessage fuel (serializeElem (PyVal.list [PyVal.str key, PyVal.str v])).data =
      some (PyVal.list [PyVal.str key, PyVal.str v], []) := by
  constructor
  · simp [handle_config_get, pyIndex, List.get?, hfound]
  · have hgood : goodVal (PyVal.list [PyVal.str key, PyVal.str v]) = true := by
      simp [goodVal, goodElemList, goodElem, hk, hv]
    have hdep : pyDepth (PyVal.list [PyVal.str key, PyVal.str v]) = 2 := rfl
    have h := readMessage_serializeTop fuel
      (PyVal.list [PyVal.str key, PyVal.str v]) [] hgood (by omega)
    simpa using h

/-- Witness for `get_lazily_expires` at a concrete expired entry. -/
theorem get_lazily_expires_witness :
    handle_get 10 ([("k", (Value.str "v", 5))] : Store) ["GET", "k"] =
      .ok (serialize_bulk_string Option.none,
        dictDel ([("k", (Value.str "v", 5))] : Store) "k") ∧
    dictGet (dictDel ([("k", (Value.str "v", 5))] : Store) "k") "k" = Option.none :=
  get_lazily_expires 10 5 ([("k", (Value.str "v", 5))] : Store) "k" (Value.str "v")
    rfl (by decide) (by decide) (by decide)

/-- Witness for `byte_offset_eq_serialized_length` on `["SET", "foo", "bar"]`. -/
theorem byte_offset_eq_serialized_length_witness :
    (∀ s ∈ ["SET", "foo", "bar"], s ≠ "") ∧
    get_byte_offset ["SET", "foo", "bar"] =
      (serializeElem (PyVal.list (["SET", "foo", "bar"].map PyVal.str))).length :=
  ⟨by decide, byte_offset_eq_serialized_length ["SET", "foo", "bar"] (by decide)⟩

/-- Witness for `codec_roundtrip` on a nested array with a CRLF-carrying
bulk body and a negative integer. -/
theorem codec_roundtrip_witness :
    goodVal (PyVal.list [PyVal.str "SET", PyVal.int (-3),
      PyVal.list [PyVal.str "a\r\nb"]]) = true ∧
    pyDepth (PyVal.list [PyVal.str "SET", PyVal.int (-3),
      PyVal.list [PyVal.str "a\r\nb"]]) ≤ 3 ∧
    readMessage 3 ((serializeTop (PyVal.list [PyVal.str "SET", PyVal.int (-3),
        PyVal.list [PyVal.str "a\r\nb"]])).data ++ []) =
      some (PyVal.list [PyVal.str "SET", PyVal.int (-3),
        PyVal.list [PyVal.str "a\r\nb"]], []) :=
  ⟨rfl, by decide,
    codec_roundtrip 3 (PyVal.list [PyVal.str "SET", PyVal.int (-3),
      PyVal.list [PyVal.str "a\r\nb"]]) [] rfl (by decide)⟩

/-- Witness for `xadd_star_resolution`: `XADD s * a b` at clock 7 into an
empty stream appends ID `7-0`. -/
theorem xadd_star_resolution_witness :
    (7 : Nat) ≠ 0 ∧
    handle_xadd 7 [] [] ["XADD", "s", "*", "a", "b"] =
      .ok (XaddReply.idReply (toString 7 ++ "-" ++ "0"),
        dictSet [] "s" [(toString 7 ++ "-" ++ "0", [("a", "b")])],
        dictSet [] "s" (Value.streamMarker, 0)) :=
  ⟨by decide,
    xadd_star_resolution 7 [] [] "s" ["a", "b"] [("a", "b")] (by decide) rfl rfl⟩

/-- Witness for `wait_response_spec`: one timed-out replica on the zero-offset
fast path, and one counted acknowledgement out of `[some 5, none]` against
master offset 3. -/
theorem wait_response_spec_witness :
    handle_wait_response 0 2 ([Option.none] : List (Option (List String))) =
      .ok ((([Option.none] : List (Option (List String))).length : Nat) : Int) ∧
    handle_wait_response 3 1 (([some 5, Option.none] : List (Option Nat)).map encodeAck) =
      .ok (((([some 5, Option.none] : List (Option Nat)).countP (ackOk 3) : Nat)) : Int) :=
  wait_response_spec 3 2 1 ([Option.none] : List (Option (List String)))
    ([some 5, Option.none] : List (Option Nat)) (by decide)

/-- Witness for `config_get_present_reply` on `CONFIG GET dir` with
`dir = /tmp`. -/
theorem config_get_present_reply_witness :
    handle_config_get [("dir", "/tmp")] ["CONFIG", "GET", "dir"] =
      .ok (serializeElem (PyVal.list [PyVal.str "dir", PyVal.str "/tmp"])) ∧
    readMessage 2 (serializeElem (PyVal.list [PyVal.str "dir", PyVal.str "/tmp"])).data =
      some (PyVal.list [PyVal.str "dir", PyVal.str "/tmp"], []) :=
  config_get_present_reply [("dir", "/tmp")] "dir" "/tmp" 2
    (by decide) (by decide) rfl (by decide)

/-- Witness for `get_after_xadd_raises_type_error`: after `XADD s 5-1 a b`
succeeds, `GET s` raises `TypeError`. -/
theorem get_after_xadd_raises_type_error_witness :
    handle_get 0 [("s", (Value.streamMarker, 0))] ["GET", "s"] = .error typeErrorMsg :=
  get_after_xadd_raises_type_error 0 7 [] [] "XADD" "s" ["5-1", "a", "b"] "5-1"
    [("s", [("5-1", [("a", "b")])])] [("s", (Value.streamMarker, 0))] rfl

end Redis
